import Mathlib

/-!
Verification of the BitFunnel ingestion core against its specification.

This file gives a shallow embedding of the parts of the BitFunnel
repository that the checked properties talk about:

* the `Slice` document-lifecycle counters (`TryAllocateDocument`,
  `CommitDocument`, `ExpireDocument`) from `Slice.cpp`;
* capacity fitting (`Shard::GetCapacityForByteSize`,
  `Shard::InitializeDescriptors`) from `Shard.cpp`;
* slice recycling (`Shard::RecycleSlice`) and document allocation
  (`Shard::AllocateDocument`) from `Shard.cpp`;
* `Ingestor::Add` / `Delete` / `Contains` from `Ingestor.cpp`;
* the slice-buffer back-pointer (`Slice::Initialize`,
  `Slice::GetSliceFromBuffer`);
* the `QueryParser` character layer (`PeekChar`, `GetChar`,
  `GetWithEscape`);
* `Shard::AddPosting` over the `RowTableDescriptor` bit layout.

Machine integers are modelled as `Nat` (the reachable states stay far
from 2^64, and no claim here depends on wrap-around).  Fallible code
returns `Option`/`Except`.  The spec distinguishes three error kinds
(recoverable errors, fatal assertions, not-implemented); `LogAssertB`
failures are fatal assertions, C++ `throw RecoverableError` is a
recoverable error.
-/

/-- The three error kinds of the spec's error-handling design:
`RecoverableError` (thrown C++ exceptions a caller may retry around),
fatal assertions (`LogAssertB`, process-terminating), and
`NotImplemented`. -/
inductive ErrorKind where
  | fatalAssertion
  | recoverableError
  | notImplemented
deriving DecidableEq

/-- The `Slice` document counters: `(m_capacity, m_unallocatedCount,
m_commitPendingCount, m_expiredCount)` from `Slice.cpp`. -/
structure SliceState where
  capacity : Nat
  unallocatedCount : Nat
  commitPendingCount : Nat
  expiredCount : Nat
deriving DecidableEq

/-- Source `Slice::Slice(Shard&)`: counters start at
`(capacity, capacity, 0, 0)`. -/
def freshSlice (capacity : Nat) : SliceState :=
  ⟨capacity, capacity, 0, 0⟩

/-- Source `Slice::TryAllocateDocument`: when `m_unallocatedCount == 0` return
`false` (modelled `none`); otherwise hand out
`index = m_capacity - m_unallocatedCount`, decrement `m_unallocatedCount`
and increment `m_commitPendingCount`. -/
def tryAllocateDocument (s : SliceState) : Option (Nat × SliceState) :=
  if s.unallocatedCount = 0 then
    none
  else
    some (s.capacity - s.unallocatedCount,
          { s with unallocatedCount := s.unallocatedCount - 1,
                   commitPendingCount := s.commitPendingCount + 1 })

/-- Source `Slice::CommitDocument`: `LogAssertB(m_commitPendingCount > 0, ...)`
is a fatal assertion; otherwise decrement `m_commitPendingCount` and
report whether `m_unallocatedCount + m_commitPendingCount == 0`. -/
def commitDocument (s : SliceState) : Except ErrorKind (Bool × SliceState) :=
  if s.commitPendingCount = 0 then
    .error .fatalAssertion
  else
    let s' : SliceState := { s with commitPendingCount := s.commitPendingCount - 1 }
    .ok (decide (s'.unallocatedCount + s'.commitPendingCount = 0), s')

/-- Source `Slice::ExpireDocument`: `LogAssertB(m_expiredCount < committedCount)`
with `committedCount = m_capacity - m_unallocatedCount -
m_commitPendingCount` is a fatal assertion; otherwise increment
`m_expiredCount` and report whether `m_expiredCount == m_capacity`. -/
def expireDocument (s : SliceState) : Except ErrorKind (Bool × SliceState) :=
  let committedCount := s.capacity - s.unallocatedCount - s.commitPendingCount
  if s.expiredCount < committedCount then
    let s' : SliceState := { s with expiredCount := s.expiredCount + 1 }
    .ok (decide (s'.expiredCount = s'.capacity), s')
  else
    .error .fatalAssertion

/-- Source `Slice::IsExpired`: `m_expiredCount == m_capacity`. -/
def sliceIsExpired (s : SliceState) : Bool :=
  decide (s.expiredCount = s.capacity)

/-- Run `n` consecutive `TryAllocateDocument` calls, collecting each
call's outcome (`some index` on success, `none` on failure). -/
def allocList : Nat → SliceState → List (Option Nat) × SliceState
  | 0, s => ([], s)
  | n + 1, s =>
    match tryAllocateDocument s with
    | none =>
      let r := allocList n s
      (none :: r.1, r.2)
    | some (i, s1) =>
      let r := allocList n s1
      (some i :: r.1, r.2)

/-- Run `n` consecutive `CommitDocument` calls, collecting the returned
booleans; a fatal assertion aborts the run. -/
def commitList : Nat → SliceState → Except ErrorKind (List Bool × SliceState)
  | 0, s => .ok ([], s)
  | n + 1, s =>
    match commitDocument s with
    | .error e => .error e
    | .ok (b, s1) =>
      match commitList n s1 with
      | .error e => .error e
      | .ok (l, s') => .ok (b :: l, s')

theorem allocList_succ (n : Nat) (s : SliceState) :
    allocList (n + 1) s =
      match tryAllocateDocument s with
      | none =>
        let r := allocList n s
        (none :: r.1, r.2)
      | some (i, s1) =>
        let r := allocList n s1
        (some i :: r.1, r.2) := rfl

theorem commitList_succ (n : Nat) (s : SliceState) :
    commitList (n + 1) s =
      match commitDocument s with
      | .error err => .error err
      | .ok (b, s1) =>
        match commitList n s1 with
        | .error err => .error err
        | .ok (l, s') => .ok (b :: l, s') := rfl

theorem allocList_run (n : Nat) :
    ∀ c u p e, n ≤ u → u ≤ c →
      allocList n ⟨c, u, p, e⟩ =
        ((List.range n).map (fun i => some (c - u + i)), ⟨c, u - n, p + n, e⟩) := by
  induction n with
  | zero => intro c u p e _ _; simp [allocList]
  | succ n ih =>
    intro c u p e hn hc
    have hu : u ≠ 0 := by omega
    have hstep : tryAllocateDocument ⟨c, u, p, e⟩ =
        some (c - u, ⟨c, u - 1, p + 1, e⟩) := by
      simp [tryAllocateDocument, hu]
    have iha := ih c (u - 1) (p + 1) e (by omega) (by omega)
    rw [allocList_succ, hstep]
    simp only [iha, Prod.mk.injEq]
    refine ⟨?_, ?_⟩
    · rw [List.range_succ_eq_map, List.map_cons, List.map_map]
      simp only [List.cons.injEq, Option.some.injEq]
      refine ⟨by omega, ?_⟩
      apply List.map_congr_left
      intro i _
      simp only [Function.comp_apply, Option.some.injEq]
      omega
    · simp only [SliceState.mk.injEq, true_and, and_true]
      omega

theorem commitList_run : ∀ p, 1 ≤ p → ∀ c e,
    commitList p ⟨c, 0, p, e⟩ =
      .ok (List.replicate (p - 1) false ++ [true], ⟨c, 0, 0, e⟩)
  | 1, _, c, e => by
    simp [commitList, commitDocument]
  | k + 2, _, c, e => by
    have hstep : commitDocument ⟨c, 0, k + 2, e⟩ =
        .ok (decide (k + 1 = 0), ⟨c, 0, k + 1, e⟩) := by
      simp [commitDocument]
    have ihk := commitList_run (k + 1) (by omega) c e
    rw [commitList_succ, hstep]
    simp only [ihk]
    simp [List.replicate_succ]

/-- C1: a freshly constructed Slice of capacity `C` answers the first
`C` `TryAllocateDocument` calls with `true` and DocIndexes
`0, 1, ..., C-1` in strictly increasing order; the `(C+1)`-th call
returns `false`; and among the `C` subsequent `CommitDocument` calls
exactly the final one (the one after which
`unallocated + commitPending == 0`) returns `true`. -/
theorem slice_fill_allocate_commit (C : Nat) (h : 0 < C) :
    allocList C (freshSlice C) = ((List.range C).map some, ⟨C, 0, C, 0⟩) ∧
    tryAllocateDocument ⟨C, 0, C, 0⟩ = none ∧
    commitList C ⟨C, 0, C, 0⟩ =
      .ok (List.replicate (C - 1) false ++ [true], ⟨C, 0, 0, 0⟩) := by
  refine ⟨?_, ?_, ?_⟩
  · have := allocList_run C C C 0 0 le_rfl le_rfl
    rw [freshSlice, this]
    simp only [Prod.mk.injEq]
    refine ⟨?_, ?_⟩
    · apply List.map_congr_left
      intro i _
      simp
    · simp only [SliceState.mk.injEq, true_and, and_true]
      omega
  · simp [tryAllocateDocument]
  · exact commitList_run C h C 0

/-- Witness for C1 at the spec's concrete scenario `sliceCapacity = 16`. -/
theorem slice_fill_allocate_commit_witness :
    0 < 16 ∧
    (allocList 16 (freshSlice 16) = ((List.range 16).map some, ⟨16, 0, 16, 0⟩) ∧
     tryAllocateDocument ⟨16, 0, 16, 0⟩ = none ∧
     commitList 16 ⟨16, 0, 16, 0⟩ =
       .ok (List.replicate 15 false ++ [true], ⟨16, 0, 0, 0⟩)) :=
  ⟨by decide, slice_fill_allocate_commit 16 (by decide)⟩

deriving instance DecidableEq for Except

/-- Counterexample for C6: on a Slice of capacity 16 holding one
allocated but uncommitted document, `ExpireDocument` fails through
`LogAssertB` — a fatal assertion — not through a `RecoverableError`. -/
theorem expire_before_commit_not_recoverable :
    tryAllocateDocument (freshSlice 16) = some (0, ⟨16, 15, 1, 0⟩) ∧
    expireDocument ⟨16, 15, 1, 0⟩ = .error .fatalAssertion ∧
    expireDocument ⟨16, 15, 1, 0⟩ ≠ .error .recoverableError := by
  decide

/-- C6 (amended): `ExpireDocument` requires `expired < committed` and
surfaces the violation as a fatal assertion (`LogAssertB`), not as a
RecoverableError.  On a Slice holding one allocated but uncommitted
document the call is a fatal assertion; after `CommitDocument` a single
`ExpireDocument` succeeds, incrementing `expired` and returning whether
`expired` now equals `capacity`; a further `ExpireDocument` beyond the
committed count is again a fatal assertion. -/
theorem expire_requires_commit_fatal (C : Nat) (h : 0 < C) :
    tryAllocateDocument (freshSlice C) = some (0, ⟨C, C - 1, 1, 0⟩) ∧
    expireDocument ⟨C, C - 1, 1, 0⟩ = .error .fatalAssertion ∧
    commitDocument ⟨C, C - 1, 1, 0⟩ = .ok (decide (C = 1), ⟨C, C - 1, 0, 0⟩) ∧
    expireDocument ⟨C, C - 1, 0, 0⟩ = .ok (decide (1 = C), ⟨C, C - 1, 0, 1⟩) ∧
    expireDocument ⟨C, C - 1, 0, 1⟩ = .error .fatalAssertion := by
  have h0 : ¬ C = 0 := by omega
  have hcom : C - (C - 1) - 1 = 0 := by omega
  have hcom2 : C - (C - 1) - 0 = 1 := by omega
  refine ⟨?_, ?_, ?_, ?_, ?_⟩
  · simp [freshSlice, tryAllocateDocument, h0]
  · simp [expireDocument, hcom]
  · simp [commitDocument, decide_eq_decide]
    omega
  · simp [expireDocument, hcom2]
  · simp [expireDocument, hcom2]

/-- Witness for C6 (amended) at capacity 16. -/
theorem expire_requires_commit_fatal_witness :
    0 < 16 ∧
    (tryAllocateDocument (freshSlice 16) = some (0, ⟨16, 15, 1, 0⟩) ∧
     expireDocument ⟨16, 15, 1, 0⟩ = .error .fatalAssertion ∧
     commitDocument ⟨16, 15, 1, 0⟩ = .ok (decide (16 = 1), ⟨16, 15, 0, 0⟩) ∧
     expireDocument ⟨16, 15, 0, 0⟩ = .ok (decide (1 = 16), ⟨16, 15, 0, 1⟩) ∧
     expireDocument ⟨16, 15, 0, 1⟩ = .error .fatalAssertion) :=
  ⟨by decide, expire_requires_commit_fatal 16 (by decide)⟩

/-- A word-granular memory: byte-offset-indexed machine words.  Only
the slice back-pointer slot is ever accessed through this model. -/
def writeWord (mem : Nat → Nat) (off v : Nat) : Nat → Nat :=
  fun a => if a = off then v else mem a

def readWord (mem : Nat → Nat) (off : Nat) : Nat :=
  mem off

/-- Source `Shard::GetSlicePtrOffset`: `m_sliceBufferSize - sizeof(void*)`
(a 64-bit pointer: 8 bytes). -/
def getSlicePtrOffset (sliceBufferSize : Nat) : Nat :=
  sliceBufferSize - 8

/-- Source `Slice::Initialize`: place a pointer to the Slice (modelled as its
abstract address `self`) in the last bytes of the slice buffer, at
`m_shard.GetSlicePtrOffset()`. -/
def initializeSlicePointer (mem : Nat → Nat) (sliceBufferSize self : Nat) : Nat → Nat :=
  writeWord mem (getSlicePtrOffset sliceBufferSize) self

/-- Source `Slice::GetSliceFromBuffer`: read the Slice pointer stored at
`slicePtrOffset` inside the buffer. -/
def getSliceFromBuffer (mem : Nat → Nat) (slicePtrOffset : Nat) : Nat :=
  readWord mem slicePtrOffset

/-- C3: for every Slice, recovering the owner from its buffer
round-trips: after `Slice::Initialize` wrote the back-pointer,
`GetSliceFromBuffer(buffer, shard.GetSlicePtrOffset())` returns the
Slice itself, and `GetSlicePtrOffset() == sliceBufferSize - sizeof(void*)`,
i.e. the trailing machine word of the buffer stores the back-pointer. -/
theorem slice_buffer_backpointer_roundtrip (mem : Nat → Nat) (bufSize self : Nat) :
    getSliceFromBuffer (initializeSlicePointer mem bufSize self)
        (getSlicePtrOffset bufSize) = self ∧
    getSlicePtrOffset bufSize = bufSize - 8 := by
  constructor
  · simp [getSliceFromBuffer, initializeSlicePointer, writeWord, readWord]
  · rfl

/-- The part of the Shard state that `Shard::AllocateDocument` touches:
`m_sliceCapacity` and the counters of `m_activeSlice` (null when no
active slice). -/
structure ShardAllocState where
  sliceCapacity : Nat
  activeSlice : Option SliceState
deriving DecidableEq

/-- Source `Shard::CreateNewActiveSlice` followed by the asserted retry of
`TryAllocateDocument` in `Shard::AllocateDocument`: a fresh Slice of the
shard's capacity becomes active and must hand out an index
(`LogAssertB(m_activeSlice->TryAllocateDocument(index), ...)` — fatal
when the new slice has no space, modelled `none`). -/
def createNewActiveSliceAlloc (st : ShardAllocState) : Option (Nat × ShardAllocState) :=
  match tryAllocateDocument (freshSlice st.sliceCapacity) with
  | some (i, s') => some (i, ⟨st.sliceCapacity, some s'⟩)
  | none => none

/-- Source `Shard::AllocateDocument`: if there is no active Slice or its
`TryAllocateDocument` fails, create a new active Slice and retry. -/
def shardAllocateDocument (st : ShardAllocState) : Option (Nat × ShardAllocState) :=
  match st.activeSlice with
  | none => createNewActiveSliceAlloc st
  | some s =>
    match tryAllocateDocument s with
    | some (i, s') => some (i, ⟨st.sliceCapacity, some s'⟩)
    | none => createNewActiveSliceAlloc st

/-- The invariant claimed by the spec for the Shard: the active Slice,
if non-null, has `unallocated > 0`. -/
def shardActiveInvariant (st : ShardAllocState) : Bool :=
  match st.activeSlice with
  | none => true
  | some s => decide (0 < s.unallocatedCount)

/-- Well-formedness of the modelled shard state: an active slice's
counters are consistent with the shard (capacity matches,
`unallocated ≤ capacity`). -/
def shardWF (st : ShardAllocState) : Bool :=
  match st.activeSlice with
  | none => true
  | some s => decide (s.capacity = st.sliceCapacity ∧ s.unallocatedCount ≤ s.capacity)

/-- Counterexample for C7: on a shard with slice capacity 1, a single
`AllocateDocument` hands out the slice's last DocIndex and leaves that
slice active with `unallocated == 0`; the claimed invariant (active
slice non-null implies `unallocated > 0`) is false at that moment. -/
theorem active_slice_invariant_fails_after_last_alloc :
    shardAllocateDocument ⟨1, none⟩ = some (0, ⟨1, some ⟨1, 0, 1, 0⟩⟩) ∧
    shardActiveInvariant ⟨1, some ⟨1, 0, 1, 0⟩⟩ = false := by
  decide

/-- C7 (amended): after every `AllocateDocument` on a well-formed shard
with positive slice capacity, the active Slice is non-null and the call
returns a valid DocIndex, but the active slice's `unallocated` count is
zero exactly when the call handed out the slice's last DocIndex; the
invariant `unallocated > 0` does not hold at that moment (a fresh
active slice is only created lazily by the next allocation). -/
theorem allocate_document_active_slice (st : ShardAllocState)
    (h0 : 0 < st.sliceCapacity) (hwf : shardWF st = true) :
    ∃ i s', shardAllocateDocument st = some (i, ⟨st.sliceCapacity, some s'⟩) ∧
      (s'.unallocatedCount = 0 ↔ i = s'.capacity - 1) ∧
      i < s'.capacity := by
  have hcap : ¬ st.sliceCapacity = 0 := by omega
  match hs : st.activeSlice with
  | none =>
    refine ⟨0, ⟨st.sliceCapacity, st.sliceCapacity - 1, 1, 0⟩, ?_, ?_, by simp; omega⟩
    · simp [shardAllocateDocument, hs, createNewActiveSliceAlloc, freshSlice,
            tryAllocateDocument, hcap]
    · simp only []
      omega
  | some s =>
    have hwf' : s.capacity = st.sliceCapacity ∧ s.unallocatedCount ≤ s.capacity := by
      have := hwf
      unfold shardWF at this
      rw [hs] at this
      exact of_decide_eq_true this
    by_cases hu : s.unallocatedCount = 0
    · refine ⟨0, ⟨st.sliceCapacity, st.sliceCapacity - 1, 1, 0⟩, ?_, ?_, by simp; omega⟩
      · simp [shardAllocateDocument, hs, tryAllocateDocument, hu,
              createNewActiveSliceAlloc, freshSlice, hcap]
      · simp only []
        omega
    · refine ⟨s.capacity - s.unallocatedCount,
        { s with unallocatedCount := s.unallocatedCount - 1,
                 commitPendingCount := s.commitPendingCount + 1 }, ?_, ?_, ?_⟩
      · simp [shardAllocateDocument, hs, tryAllocateDocument, hu]
      · simp only []
        omega
      · simp only []
        omega

/-- Witness for C7 (amended): a shard with capacity 2 and no active
slice. -/
theorem allocate_document_active_slice_witness :
    0 < (⟨2, none⟩ : ShardAllocState).sliceCapacity ∧
    shardWF ⟨2, none⟩ = true ∧
    (∃ i s', shardAllocateDocument ⟨2, none⟩ =
        some (i, ⟨(⟨2, none⟩ : ShardAllocState).sliceCapacity, some s'⟩) ∧
      (s'.unallocatedCount = 0 ↔ i = s'.capacity - 1) ∧
      i < s'.capacity) :=
  ⟨by decide, by decide,
   allocate_document_active_slice ⟨2, none⟩ (by decide) (by decide)⟩

theorem filter_bne_of_not_mem {l : List Nat} {a : Nat} (h : a ∉ l) :
    l.filter (fun b => b != a) = l := by
  apply List.filter_eq_self.mpr
  intro b hb
  simp only [bne_iff_ne, ne_eq]
  rintro rfl
  exact h hb

theorem filter_bne_of_count_eq_one {l : List Nat} {a : Nat} (h : l.count a = 1) :
    l.filter (fun b => b != a) = l.erase a := by
  induction l with
  | nil => simp
  | cons x xs ih =>
    by_cases hx : x = a
    · subst hx
      have hxs : x ∉ xs := by
        rw [← List.count_eq_zero]
        have hcx : (x :: xs).count x = xs.count x + 1 := by
          simp [List.count_cons]
        omega
      rw [List.erase_cons_head]
      simp only [List.filter_cons, bne_self_eq_false]
      exact filter_bne_of_not_mem hxs
    · have hcx : (x :: xs).count a = xs.count a := by
        simp [List.count_cons, hx]
      rw [List.erase_cons_tail (by simpa using hx)]
      simp only [List.filter_cons, bne_iff_ne, ne_eq, hx, not_false_eq_true,
        decide_True, if_true]
      rw [ih (by omega)]

/-- The identity of a live Slice as `Shard::RecycleSlice` sees it: the
Slice object's address, its buffer's address, and `IsExpired()`. -/
structure SliceModel where
  sliceId : Nat
  buffer : Nat
  expired : Bool
deriving DecidableEq

/-- The Shard state `RecycleSlice` reads and writes: the published
slice-buffer list `m_sliceBuffers` (buffer addresses, in order) and the
active Slice `m_activeSlice` (its address, null when absent). -/
structure ShardState where
  sliceBuffers : List Nat
  activeSlice : Option Nat
deriving DecidableEq

/-- Outcome of `Shard::RecycleSlice`: the shard state after the call
(unchanged when the call throws), what was scheduled through the
recycler (the Slice plus the old slice-buffer list), and the raised
error, if any. -/
structure RecycleResult where
  state : ShardState
  scheduled : Option (SliceModel × List Nat)
  err : Option ErrorKind
deriving DecidableEq

/-- Source `Shard::RecycleSlice`: require `slice.IsExpired()` (else throw
`RecoverableError` before mutating anything); build a new slice-buffer
vector omitting the slice's buffer; require exactly one buffer to have
been dropped (else throw `RecoverableError`); publish the new vector,
null out `m_activeSlice` if it was this slice, and schedule
`{slice, old vector}` through the recycler. -/
def recycleSlice (st : ShardState) (sl : SliceModel) : RecycleResult :=
  if sl.expired = false then
    ⟨st, none, some .recoverableError⟩
  else
    let newSlices := st.sliceBuffers.filter (fun b => b != sl.buffer)
    if st.sliceBuffers.length ≠ newSlices.length + 1 then
      ⟨st, none, some .recoverableError⟩
    else
      ⟨⟨newSlices, if st.activeSlice = some sl.sliceId then none else st.activeSlice⟩,
       some (sl, st.sliceBuffers), none⟩

/-- C5: `Shard::RecycleSlice` on a non-expired Slice raises a
`RecoverableError` and leaves the shard state unchanged (nothing
scheduled); on an expired Slice whose buffer occurs exactly once in the
published list, it publishes the old list with exactly that buffer
removed (all other buffers preserved in order), nulls the active slice
if the recycled Slice was active, and schedules the Slice together with
the old list through the recycler. -/
theorem recycleSlice_spec (st : ShardState) (sl : SliceModel) :
    (sl.expired = false →
      recycleSlice st sl = ⟨st, none, some .recoverableError⟩) ∧
    (sl.expired = true → st.sliceBuffers.count sl.buffer = 1 →
      recycleSlice st sl =
        ⟨⟨st.sliceBuffers.erase sl.buffer,
          if st.activeSlice = some sl.sliceId then none else st.activeSlice⟩,
         some (sl, st.sliceBuffers), none⟩) := by
  constructor
  · intro he
    simp [recycleSlice, he]
  · intro he hc
    have hmem : sl.buffer ∈ st.sliceBuffers := by
      by_contra hnm
      rw [List.count_eq_zero.mpr hnm] at hc
      omega
    have hfil := filter_bne_of_count_eq_one hc
    have hlen : (st.sliceBuffers.filter (fun b => b != sl.buffer)).length + 1 =
        st.sliceBuffers.length := by
      rw [hfil]
      have h1 := List.length_erase_of_mem hmem
      have h2 := List.length_pos_of_mem hmem
      omega
    simp only [recycleSlice, he]
    rw [if_neg (by simp), if_neg (by omega), hfil]

/-- Witness for C5: a shard holding three buffers whose middle, expired
slice (also the active one) is recycled. -/
theorem recycleSlice_spec_witness :
    (⟨7, 20, true⟩ : SliceModel).expired = true ∧
    (⟨[10, 20, 30], some 7⟩ : ShardState).sliceBuffers.count
      (⟨7, 20, true⟩ : SliceModel).buffer = 1 ∧
    recycleSlice ⟨[10, 20, 30], some 7⟩ ⟨7, 20, true⟩ =
      ⟨⟨(⟨[10, 20, 30], some 7⟩ : ShardState).sliceBuffers.erase
          (⟨7, 20, true⟩ : SliceModel).buffer,
        if (⟨[10, 20, 30], some 7⟩ : ShardState).activeSlice =
            some (⟨7, 20, true⟩ : SliceModel).sliceId then none
        else (⟨[10, 20, 30], some 7⟩ : ShardState).activeSlice⟩,
       some (⟨7, 20, true⟩, (⟨[10, 20, 30], some 7⟩ : ShardState).sliceBuffers),
       none⟩ :=
  ⟨by decide, by decide,
   (recycleSlice_spec ⟨[10, 20, 30], some 7⟩ ⟨7, 20, true⟩).2 (by decide) (by decide)⟩

/-- The failures that can reach the caller of `Ingestor::Add`, tagged
by the step that raised them (`expireErr` is listed so that the
theorems can state that the rollback's own failure never surfaces). -/
inductive AddError where
  | ingestErr
  | activateErr
  | commitErr
  | duplicateErr
  | expireErr
deriving DecidableEq

/-- Behaviour of the external collaborators during one `Ingestor::Add`
call: whether `document.Ingest(handle)`, `handle.Activate()`,
`CommitDocument` and the cleanup `handle.Expire()` raise. -/
structure AddBehavior where
  ingestFails : Bool
  activateFails : Bool
  commitFails : Bool
  expireFails : Bool
deriving DecidableEq

/-- The Ingestor state `Add` touches: `m_documentCount`, the
`DocumentLengthHistogram` (the recorded posting counts, most recent
first) and the `DocumentMap` keys. -/
structure IngestorState where
  documentCount : Nat
  histogram : List Nat
  docMap : List Nat
deriving DecidableEq

/-- Outcome of one `Ingestor::Add` call: the Ingestor state afterwards,
the error propagated to the caller (if any), whether the rollback
`handle.Expire()` ran, and whether a cleanup error was logged (and
swallowed). -/
structure AddOutcome where
  state : IngestorState
  error : Option AddError
  expireCalled : Bool
  cleanupLogged : Bool
deriving DecidableEq

/-- Source `Ingestor::Add`: increment `m_documentCount` and record the posting
count in the histogram; allocate a handle; run `document.Ingest`,
`handle.Activate()`, `CommitDocument` — any failure there propagates
directly.  Only `m_documentMap->Add(handle)` sits in a try/catch:
insertion fails on a duplicate DocId, in which case `handle.Expire()`
runs, any error it raises is logged and swallowed, and the original
failure is re-thrown. -/
def ingestorAdd (st : IngestorState) (beh : AddBehavior) (id postingCount : Nat) :
    AddOutcome :=
  let st1 : IngestorState :=
    { st with documentCount := st.documentCount + 1,
              histogram := postingCount :: st.histogram }
  if beh.ingestFails then
    ⟨st1, some .ingestErr, false, false⟩
  else if beh.activateFails then
    ⟨st1, some .activateErr, false, false⟩
  else if beh.commitFails then
    ⟨st1, some .commitErr, false, false⟩
  else if st1.docMap.contains id then
    ⟨st1, some .duplicateErr, true, beh.expireFails⟩
  else
    ⟨{ st1 with docMap := id :: st1.docMap }, none, false, false⟩

/-- Source `Ingestor::Contains`: a `DocumentMap` lookup with no side effects. -/
def ingestorContains (st : IngestorState) (id : Nat) : Bool :=
  st.docMap.contains id

def isExpireErr : Option AddError → Bool
  | some AddError.expireErr => true
  | _ => false

def isDuplicateErr : Option AddError → Bool
  | some AddError.duplicateErr => true
  | _ => false

/-- Counterexample for C4: a failure raised by `document.Ingest` —
after the handle has been allocated — propagates to the caller without
`handle.Expire()` being called: the try/catch in `Ingestor::Add` covers
only the `DocumentMap` insertion. -/
theorem ingest_failure_no_rollback :
    (ingestorAdd ⟨0, [], []⟩ ⟨true, false, false, false⟩ 1 3).error =
      some .ingestErr ∧
    (ingestorAdd ⟨0, [], []⟩ ⟨true, false, false, false⟩ 1 3).expireCalled = false := by
  decide

/-- C4 (amended): in `Ingestor::Add`, only a failure of the
`DocumentMap` insertion (a duplicate DocId) triggers the rollback
`handle.Expire()`; failures during `document.Ingest`, `Activate` or
`CommitDocument` propagate to the caller without rollback.  Any error
raised during the rollback is logged and swallowed, and the original
(duplicate-insertion) failure is re-thrown to the caller unmasked. -/
theorem add_rollback_only_on_map_insert (st : IngestorState) (beh : AddBehavior)
    (id pc : Nat) :
    (ingestorAdd st beh id pc).expireCalled =
      (!beh.ingestFails && !beh.activateFails && !beh.commitFails &&
        st.docMap.contains id) ∧
    (ingestorAdd st beh id pc).error.isSome =
      (beh.ingestFails || beh.activateFails || beh.commitFails ||
        st.docMap.contains id) ∧
    isExpireErr (ingestorAdd st beh id pc).error = false ∧
    isDuplicateErr (ingestorAdd st beh id pc).error =
      (!beh.ingestFails && !beh.activateFails && !beh.commitFails &&
        st.docMap.contains id) ∧
    (ingestorAdd st beh id pc).cleanupLogged =
      ((!beh.ingestFails && !beh.activateFails && !beh.commitFails &&
        st.docMap.contains id) && beh.expireFails) := by
  obtain ⟨bi, ba, bc, be⟩ := beh
  by_cases hid : id ∈ st.docMap <;>
    cases bi <;> cases ba <;> cases bc <;> cases be <;>
      simp [ingestorAdd, isExpireErr, isDuplicateErr, hid]

/-- Witness for C4 (amended): a duplicate-id insertion with a failing
cleanup. -/
theorem add_rollback_only_on_map_insert_witness :
    (ingestorAdd ⟨1, [4], [5]⟩ ⟨false, false, false, true⟩ 5 9).expireCalled =
      (!false && !false && !false && (⟨1, [4], [5]⟩ : IngestorState).docMap.contains 5) ∧
    (ingestorAdd ⟨1, [4], [5]⟩ ⟨false, false, false, true⟩ 5 9).error.isSome =
      (false || false || false || (⟨1, [4], [5]⟩ : IngestorState).docMap.contains 5) ∧
    isExpireErr (ingestorAdd ⟨1, [4], [5]⟩ ⟨false, false, false, true⟩ 5 9).error = false ∧
    isDuplicateErr (ingestorAdd ⟨1, [4], [5]⟩ ⟨false, false, false, true⟩ 5 9).error =
      (!false && !false && !false && (⟨1, [4], [5]⟩ : IngestorState).docMap.contains 5) ∧
    (ingestorAdd ⟨1, [4], [5]⟩ ⟨false, false, false, true⟩ 5 9).cleanupLogged =
      ((!false && !false && !false && (⟨1, [4], [5]⟩ : IngestorState).docMap.contains 5) &&
        true) :=
  add_rollback_only_on_map_insert ⟨1, [4], [5]⟩ ⟨false, false, false, true⟩ 5 9

/-- Counterexample for C9: an `Add` of DocId 5 that fails (duplicate
id) and rolls back via `Expire` leaves the document count and histogram
incremented — but `Contains(5)` is `true`, not `false`: the insertion
failed precisely because the id was already present, and the earlier
mapping remains. -/
theorem failed_add_contains_true :
    (ingestorAdd ⟨1, [7], [5]⟩ ⟨false, false, false, false⟩ 5 9).error.isSome = true ∧
    (ingestorAdd ⟨1, [7], [5]⟩ ⟨false, false, false, false⟩ 5 9).expireCalled = true ∧
    (ingestorAdd ⟨1, [7], [5]⟩ ⟨false, false, false, false⟩ 5 9).state.documentCount = 2 ∧
    (ingestorAdd ⟨1, [7], [5]⟩ ⟨false, false, false, false⟩ 5 9).state.histogram = [9, 7] ∧
    ingestorContains (ingestorAdd ⟨1, [7], [5]⟩ ⟨false, false, false, false⟩ 5 9).state 5 =
      true := by
  decide

/-- C9 (amended): `Ingestor::Add` increments the internal document
count and prepends the document's posting count to the length histogram
unconditionally, before allocating a handle; these increments persist
when `Add` subsequently fails.  The `DocumentMap` is unchanged by a
failed `Add`; in the rollback-via-`Expire` case (a duplicate id)
`Contains(id)` remains `true`, from the earlier document. -/
theorem add_counts_persist (st : IngestorState) (beh : AddBehavior) (id pc : Nat) :
    (ingestorAdd st beh id pc).state.documentCount = st.documentCount + 1 ∧
    (ingestorAdd st beh id pc).state.histogram = pc :: st.histogram ∧
    (ingestorAdd st beh id pc).state.docMap =
      (if (ingestorAdd st beh id pc).error.isSome then st.docMap else id :: st.docMap) ∧
    ((ingestorAdd st beh id pc).expireCalled && !(st.docMap.contains id)) = false := by
  obtain ⟨bi, ba, bc, be⟩ := beh
  by_cases hid : id ∈ st.docMap <;>
    cases bi <;> cases ba <;> cases bc <;> cases be <;>
      simp [ingestorAdd, hid]

/-- Witness for C9 (amended) at the duplicate-id input. -/
theorem add_counts_persist_witness :
    (ingestorAdd ⟨1, [7], [5]⟩ ⟨false, false, false, false⟩ 5 9).state.documentCount =
      (⟨1, [7], [5]⟩ : IngestorState).documentCount + 1 ∧
    (ingestorAdd ⟨1, [7], [5]⟩ ⟨false, false, false, false⟩ 5 9).state.histogram =
      9 :: (⟨1, [7], [5]⟩ : IngestorState).histogram ∧
    (ingestorAdd ⟨1, [7], [5]⟩ ⟨false, false, false, false⟩ 5 9).state.docMap =
      (if (ingestorAdd ⟨1, [7], [5]⟩ ⟨false, false, false, false⟩ 5 9).error.isSome then
        (⟨1, [7], [5]⟩ : IngestorState).docMap
       else 5 :: (⟨1, [7], [5]⟩ : IngestorState).docMap) ∧
    ((ingestorAdd ⟨1, [7], [5]⟩ ⟨false, false, false, false⟩ 5 9).expireCalled &&
      !((⟨1, [7], [5]⟩ : IngestorState).docMap.contains 5)) = false :=
  add_counts_persist ⟨1, [7], [5]⟩ ⟨false, false, false, false⟩ 5 9

/-- Source `QueryParser::ParseError`: a `RecoverableError` carrying a message
and a position (`m_position : size_t`). -/
structure ParseErr where
  message : String
  position : Nat
deriving DecidableEq

/-- The `QueryParser` input state: the input characters and
`m_currentPosition`.  (`PeekChar`'s one-character lookahead buffer over
the stream is equivalent to indexing the character list.) -/
structure PState where
  input : List Char
  pos : Nat
deriving DecidableEq

/-- Source `QueryParser::PeekChar`: the next character, or `'\0'` once the
stream is exhausted (stream `get` returning -1 maps to `'\0'`). -/
def peekChar (s : PState) : Char :=
  s.input.getD s.pos (Char.ofNat 0)

/-- Source `QueryParser::GetChar`: reading past the NUL byte is a `ParseError`
at `m_currentPosition`; otherwise consume the character and advance
`m_currentPosition`. -/
def getChar (s : PState) : Except ParseErr (Char × PState) :=
  let result := peekChar s
  if result = Char.ofNat 0 then
    .error ⟨"Attempting to read past NULL byte", s.pos⟩
  else
    .ok (result, ⟨s.input, s.pos + 1⟩)

/-- The legal escapes of `QueryParser::GetWithEscape`:
`"&|\\()\":-"`. -/
def legalEscapes : List Char :=
  ['&', '|', '\\', '(', ')', '"', ':', '-']

/-- Source `QueryParser::GetWithEscape`: on a backslash, consume it and return
the escaped character when legal; an illegal escape throws
`ParseError("Bad escape char", c)` — note the source passes the
offending *character* `c` (converted to `size_t`), not
`m_currentPosition`, as the error's position. -/
def getWithEscape (s : PState) : Except ParseErr (Char × PState) :=
  let c := peekChar s
  if c = '\\' then
    match getChar s with
    | .error err => .error err
    | .ok (_, s1) =>
      let c2 := peekChar s1
      if legalEscapes.contains c2 then
        getChar s1
      else
        .error ⟨"Bad escape char", c2.toNat⟩
  else
    getChar s

/-- C8 (code bug): on the input `\x` the escape of `'x'` is illegal,
and the `ParseError` raised by `GetWithEscape` carries position 120 —
the character code of `'x'` — although parsing stopped at character
offset 1 (the backslash was consumed).  Every other `ParseError` site
passes `m_currentPosition`; this one passes the character itself. -/
theorem bad_escape_error_position :
    getWithEscape ⟨['\\', 'x'], 0⟩ = .error ⟨"Bad escape char", 120⟩ ∧
    getChar ⟨['\\', 'x'], 0⟩ = .ok ('\\', ⟨['\\', 'x'], 1⟩) ∧
    (120 : Nat) ≠ 1 := by
  refine ⟨?_, ?_, by decide⟩
  · rfl
  · rfl

/-- A `RowId`: `(rank, index)` naming one row of the shard's RowTable
for that rank. -/
structure RowId where
  rank : Nat
  index : Nat
deriving DecidableEq

/-- The per-shard layout `Shard::AddPosting` writes through: for each
rank, the base byte offset of that rank's RowTable inside the slice
buffer, plus the slice capacity. -/
structure SliceLayout where
  rowTableOffset : Nat → Nat
  capacity : Nat

/-- Modelled from the spec: `RowTableDescriptor` is not under `src/`;
a row at rank `r` uses `capacity / (8 * 2^r)` bytes. -/
def rowBytes (layout : SliceLayout) (rank : Nat) : Nat :=
  layout.capacity / (8 * 2 ^ rank)

/-- Modelled from the spec: `RowTableDescriptor::SetBit` is not under
`src/`; the bit for `(row, docIndex)` lives at byte
`rowTableOffset + row.index * rowBytes + (docIndex >> rank) / 8`, bit
`(docIndex >> rank) % 8`; this is its absolute bit address in the slice
buffer. -/
def bitAddress (layout : SliceLayout) (row : RowId) (docIndex : Nat) : Nat :=
  8 * (layout.rowTableOffset row.rank + row.index * rowBytes layout row.rank +
        (docIndex >>> row.rank) / 8) +
    (docIndex >>> row.rank) % 8

/-- Source `RowTableDescriptor::SetBit` over a buffer viewed as its bits. -/
def setBit (buf : Nat → Bool) (layout : SliceLayout) (row : RowId) (docIndex : Nat) :
    Nat → Bool :=
  fun p => if p = bitAddress layout row docIndex then true else buf p

/-- Source `Shard::AddPosting`: for each RowId in the term's
`RowIdSequence(term, termTable)` — modelled as the list `rows` — set
the bit at that row and the document's column.  (The call also records
the term in the `DocumentFrequencyTableBuilder`; that side table does
not touch the slice buffer.) -/
def addPosting (layout : SliceLayout) (rows : List RowId) (docIndex : Nat)
    (buf : Nat → Bool) : Nat → Bool :=
  rows.foldl (fun b row => setBit b layout row docIndex) buf

theorem addPosting_apply (layout : SliceLayout) (rows : List RowId) (docIndex : Nat) :
    ∀ buf p, addPosting layout rows docIndex buf p =
      (buf p || rows.any (fun r => decide (p = bitAddress layout r docIndex))) := by
  induction rows with
  | nil => intro buf p; simp [addPosting]
  | cons r rs ih =>
    intro buf p
    have hstep : addPosting layout (r :: rs) docIndex buf =
        addPosting layout rs docIndex (setBit buf layout r docIndex) := rfl
    rw [hstep, ih]
    by_cases hp : p = bitAddress layout r docIndex
    · simp [setBit, hp]
    · simp [setBit, hp]

/-- C10: `Shard::AddPosting` only ever sets bits, never clears them; it
is idempotent on the buffer; it sets the bit at the intersection of
each of the term's rows and the DocIndex's column; and every bit
outside those addressed positions is unchanged. -/
theorem addPosting_sets_exactly_row_bits (layout : SliceLayout) (rows : List RowId)
    (docIndex : Nat) (buf : Nat → Bool) :
    addPosting layout rows docIndex (addPosting layout rows docIndex buf) =
      addPosting layout rows docIndex buf ∧
    (∀ p, buf p = true → addPosting layout rows docIndex buf p = true) ∧
    (∀ r ∈ rows, addPosting layout rows docIndex buf (bitAddress layout r docIndex) =
      true) ∧
    (∀ p, (∀ r ∈ rows, p ≠ bitAddress layout r docIndex) →
      addPosting layout rows docIndex buf p = buf p) := by
  refine ⟨?_, ?_, ?_, ?_⟩
  · funext p
    rw [addPosting_apply, addPosting_apply]
    cases h : rows.any (fun r => decide (p = bitAddress layout r docIndex)) <;> simp [h]
  · intro p hp
    rw [addPosting_apply, hp]
    simp
  · intro r hr
    rw [addPosting_apply]
    have : rows.any (fun q => decide (bitAddress layout r docIndex =
        bitAddress layout q docIndex)) = true := by
      rw [List.any_eq_true]
      exact ⟨r, hr, by simp⟩
    rw [this]
    simp
  · intro p hp
    rw [addPosting_apply]
    have : rows.any (fun r => decide (p = bitAddress layout r docIndex)) = false := by
      rw [List.any_eq_false]
      intro r hr
      simp [hp r hr]
    rw [this]
    simp

/-- Witness for C10 at a concrete layout, a two-row term and an
all-zero buffer. -/
theorem addPosting_sets_exactly_row_bits_witness :
    addPosting ⟨fun r => 100 * r, 64⟩ [⟨0, 0⟩, ⟨1, 2⟩] 5
        (addPosting ⟨fun r => 100 * r, 64⟩ [⟨0, 0⟩, ⟨1, 2⟩] 5 (fun _ => false)) =
      addPosting ⟨fun r => 100 * r, 64⟩ [⟨0, 0⟩, ⟨1, 2⟩] 5 (fun _ => false) ∧
    (∀ p, (fun _ => false) p = true →
      addPosting ⟨fun r => 100 * r, 64⟩ [⟨0, 0⟩, ⟨1, 2⟩] 5 (fun _ => false) p = true) ∧
    (∀ r ∈ [(⟨0, 0⟩ : RowId), ⟨1, 2⟩],
      addPosting ⟨fun r => 100 * r, 64⟩ [⟨0, 0⟩, ⟨1, 2⟩] 5 (fun _ => false)
        (bitAddress ⟨fun r => 100 * r, 64⟩ r 5) = true) ∧
    (∀ p, (∀ r ∈ [(⟨0, 0⟩ : RowId), ⟨1, 2⟩],
        p ≠ bitAddress ⟨fun r => 100 * r, 64⟩ r 5) →
      addPosting ⟨fun r => 100 * r, 64⟩ [⟨0, 0⟩, ⟨1, 2⟩] 5 (fun _ => false) p =
        (fun _ => false) p) :=
  addPosting_sets_exactly_row_bits ⟨fun r => 100 * r, 64⟩ [⟨0, 0⟩, ⟨1, 2⟩] 5
    (fun _ => false)

/-- Source `c_maxRankValue = 6`: ranks run over `0..6`. -/
def c_maxRankValue : Nat := 6

/-- Source `DocumentDataSchema`: the registered variable-size blob slots and
the byte lengths of the fixed-size blob slots. -/
structure DocumentDataSchema where
  variableSizeBlobCount : Nat
  fixedSizeBlobSizes : List Nat

/-- Modelled from the spec: `DocTableDescriptor` is not under `src/`;
per-document record size = sum of fixed-blob sizes + one pointer slot
(8 bytes) per variable-size blob. -/
def docTableRecordSize (schema : DocumentDataSchema) : Nat :=
  schema.fixedSizeBlobSizes.sum + 8 * schema.variableSizeBlobCount

/-- Modelled from the spec: `DocTableDescriptor::GetBufferSize` is not under `src/`;
region size = `capacity * recordSize`. -/
def docTableBufferSize (capacity : Nat) (schema : DocumentDataSchema) : Nat :=
  capacity * docTableRecordSize schema

/-- The TermTable contract the Shard consumes:
`GetTotalRowCount(rank)` and `GetMaxRankUsed()`. -/
structure TermTableModel where
  totalRowCount : Nat → Nat
  maxRankUsed : Nat

/-- Modelled from the spec: `Row` is not under `src/`;
`Row::DocumentsInRank0Row(1, maxRank) = 2^maxRank * 64`. -/
def documentsInRank0Row1 (maxRank : Nat) : Nat :=
  2 ^ maxRank * 64

/-- Modelled from the spec: `RowTableDescriptor::GetBufferSize` is not
under `src/`; a row at rank `r` uses `capacity / (8 * 2^r)` bytes, and
the rank's region holds `rowCount` such rows. -/
def rowTableBufferSize (capacity rowCount rank : Nat) : Nat :=
  rowCount * (capacity / (8 * 2 ^ rank))

/-- Source `Shard::InitializeDescriptors` (size computation): the DocTable
region at offset 0, then one RowTable region per rank `0..6`, then the
trailing `Slice*` pointer (8 bytes). -/
def initializeDescriptors (sliceCapacity : Nat) (schema : DocumentDataSchema)
    (tt : TermTableModel) : Nat :=
  docTableBufferSize sliceCapacity schema +
    ((List.range (c_maxRankValue + 1)).map
      (fun r => rowTableBufferSize sliceCapacity (tt.totalRowCount r) r)).sum + 8

/-- Outcome of `Shard::GetCapacityForByteSize`: the returned capacity,
the fatal `LogAssertB(capacity > 0, ...)`, or non-termination of the
`for(;;)` search within the modelled fuel. -/
inductive CapacityResult where
  | ok (capacity : Nat)
  | fatal
  | outOfFuel
deriving DecidableEq

/-- The `for(;;)` loop of `Shard::GetCapacityForByteSize`: repeatedly
suggest `capacity + DocumentsInRank0Row(1, maxRankUsed)`; stop as soon
as the suggested layout exceeds the buffer; then
`LogAssertB(capacity > 0)` (fatal when no quantum fits). -/
def capacityLoop (B : Nat) (schema : DocumentDataSchema) (tt : TermTableModel) :
    Nat → Nat → CapacityResult
  | 0, _ => .outOfFuel
  | fuel + 1, capacity =>
    let newSuggestedCapacity := capacity + documentsInRank0Row1 tt.maxRankUsed
    if B < initializeDescriptors newSuggestedCapacity schema tt then
      if 0 < capacity then .ok capacity else .fatal
    else
      capacityLoop B schema tt fuel newSuggestedCapacity

/-- Source `Shard::GetCapacityForByteSize(bufferSizeInBytes, schema, termTable)`,
started from `capacity = 0`; `B + 1` loop iterations are enough fuel
whenever the layout size is unbounded in the capacity. -/
def getCapacityForByteSize (B : Nat) (schema : DocumentDataSchema)
    (tt : TermTableModel) : CapacityResult :=
  capacityLoop B schema tt (B + 1) 0

/-- The characterization claimed for the returned capacity: a positive
multiple of the quantum `DocumentsInRank0Row(1, maxRankUsed)` whose
layout fits in `B` while the next quantum's layout does not. -/
def fitsCapacity (B : Nat) (schema : DocumentDataSchema) (tt : TermTableModel)
    (c : Nat) : Prop :=
  c % documentsInRank0Row1 tt.maxRankUsed = 0 ∧ 0 < c ∧
  initializeDescriptors c schema tt ≤ B ∧
  B < initializeDescriptors (c + documentsInRank0Row1 tt.maxRankUsed) schema tt

theorem capacityLoop_succ (B : Nat) (schema : DocumentDataSchema)
    (tt : TermTableModel) (n cap : Nat) :
    capacityLoop B schema tt (n + 1) cap =
      (if B < initializeDescriptors (cap + documentsInRank0Row1 tt.maxRankUsed)
            schema tt then
        (if 0 < cap then .ok cap else .fatal)
      else
        capacityLoop B schema tt n (cap + documentsInRank0Row1 tt.maxRankUsed)) := rfl

theorem initializeDescriptors_mono (schema : DocumentDataSchema) (tt : TermTableModel)
    {c c' : Nat} (h : c ≤ c') :
    initializeDescriptors c schema tt ≤ initializeDescriptors c' schema tt := by
  unfold initializeDescriptors docTableBufferSize
  have hsum : ∀ l : List Nat,
      (l.map (fun r => rowTableBufferSize c (tt.totalRowCount r) r)).sum ≤
        (l.map (fun r => rowTableBufferSize c' (tt.totalRowCount r) r)).sum := by
    intro l
    induction l with
    | nil => simp
    | cons a l ih =>
      simp only [List.map_cons, List.sum_cons, rowTableBufferSize]
      exact Nat.add_le_add (Nat.mul_le_mul le_rfl (Nat.div_le_div_right h)) ih
  exact Nat.add_le_add (Nat.add_le_add (Nat.mul_le_mul h le_rfl) (hsum _)) le_rfl

theorem div8_le_initializeDescriptors (schema : DocumentDataSchema)
    (tt : TermTableModel) (c : Nat) (h0 : 0 < tt.totalRowCount 0) :
    c / 8 ≤ initializeDescriptors c schema tt := by
  have hr : List.range (c_maxRankValue + 1) = [0, 1, 2, 3, 4, 5, 6] := rfl
  unfold initializeDescriptors
  rw [hr]
  simp only [List.map_cons, List.map_nil, List.sum_cons, List.sum_nil]
  have h1 : c / 8 ≤ rowTableBufferSize c (tt.totalRowCount 0) 0 := by
    unfold rowTableBufferSize
    rw [show 8 * 2 ^ 0 = 8 from by norm_num]
    exact Nat.le_mul_of_pos_left _ h0
  omega

theorem capacityLoop_spec (B : Nat) (schema : DocumentDataSchema)
    (tt : TermTableModel) : ∀ fuel cap, 0 < fuel →
    cap % documentsInRank0Row1 tt.maxRankUsed = 0 →
    (cap = 0 ∨ (0 < cap ∧ initializeDescriptors cap schema tt ≤ B)) →
    B < initializeDescriptors (cap + fuel * documentsInRank0Row1 tt.maxRankUsed)
        schema tt →
    (capacityLoop B schema tt fuel cap = .fatal ∧ cap = 0 ∧
      B < initializeDescriptors (documentsInRank0Row1 tt.maxRankUsed) schema tt) ∨
    (∃ c, capacityLoop B schema tt fuel cap = .ok c ∧ fitsCapacity B schema tt c) := by
  intro fuel
  induction fuel with
  | zero => intro cap h; exact absurd h (by omega)
  | succ n ih =>
    intro cap _ hmod hstate hbound
    have hq : 0 < documentsInRank0Row1 tt.maxRankUsed := by
      unfold documentsInRank0Row1
      have := pow_pos (show (0 : Nat) < 2 from by norm_num) tt.maxRankUsed
      omega
    by_cases hif : B < initializeDescriptors
        (cap + documentsInRank0Row1 tt.maxRankUsed) schema tt
    · rcases hstate with hcap0 | ⟨hpos, hsz⟩
      · left
        subst hcap0
        refine ⟨?_, rfl, by simpa using hif⟩
        rw [capacityLoop_succ, if_pos hif, if_neg (by omega)]
      · right
        refine ⟨cap, ?_, hmod, hpos, hsz, hif⟩
        rw [capacityLoop_succ, if_pos hif, if_pos hpos]
    · have hszle : initializeDescriptors
          (cap + documentsInRank0Row1 tt.maxRankUsed) schema tt ≤ B :=
        Nat.le_of_not_lt hif
      have hn : 0 < n := by
        by_contra h
        have hn0 : n = 0 := by omega
        rw [hn0] at hbound
        simp only [Nat.zero_add, one_mul] at hbound
        exact hif hbound
      have hmod' : (cap + documentsInRank0Row1 tt.maxRankUsed) %
          documentsInRank0Row1 tt.maxRankUsed = 0 := by
        rw [Nat.add_mod, hmod, Nat.mod_self]
        simp
      have hbound' : B < initializeDescriptors
          ((cap + documentsInRank0Row1 tt.maxRankUsed) +
            n * documentsInRank0Row1 tt.maxRankUsed) schema tt := by
        rw [show (cap + documentsInRank0Row1 tt.maxRankUsed) +
              n * documentsInRank0Row1 tt.maxRankUsed =
            cap + (n + 1) * documentsInRank0Row1 tt.maxRankUsed from by ring]
        exact hbound
      have hrec := ih (cap + documentsInRank0Row1 tt.maxRankUsed) hn hmod'
        (Or.inr ⟨by omega, hszle⟩) hbound'
      rcases hrec with ⟨_, habs, _⟩ | ⟨c, hok, hfits⟩
      · exact absurd habs (by omega)
      · right
        refine ⟨c, ?_, hfits⟩
        rw [capacityLoop_succ, if_neg hif]
        exact hok

theorem fitsCapacity_unique (B : Nat) (schema : DocumentDataSchema)
    (tt : TermTableModel) {c c' : Nat} (h : fitsCapacity B schema tt c)
    (h' : fitsCapacity B schema tt c') : c = c' := by
  have hq : 0 < documentsInRank0Row1 tt.maxRankUsed := by
    unfold documentsInRank0Row1
    have := pow_pos (show (0 : Nat) < 2 from by norm_num) tt.maxRankUsed
    omega
  have key : ∀ a b, fitsCapacity B schema tt a → fitsCapacity B schema tt b →
      a < b → False := by
    intro a b ⟨hma, _, _, hlta⟩ ⟨hmb, _, hleb, _⟩ hab
    have hda : documentsInRank0Row1 tt.maxRankUsed ∣ a := Nat.dvd_of_mod_eq_zero hma
    have hdb : documentsInRank0Row1 tt.maxRankUsed ∣ b := Nat.dvd_of_mod_eq_zero hmb
    have hdd : documentsInRank0Row1 tt.maxRankUsed ∣ (b - a) := Nat.dvd_sub' hdb hda
    have hge : documentsInRank0Row1 tt.maxRankUsed ≤ b - a :=
      Nat.le_of_dvd (by omega) hdd
    have hstep : a + documentsInRank0Row1 tt.maxRankUsed ≤ b := by omega
    have := initializeDescriptors_mono schema tt hstep
    omega
  rcases Nat.lt_trichotomy c c' with hlt | heq | hgt
  · exact absurd (key c c' h h' hlt) (by simp)
  · exact heq
  · exact absurd (key c' c h' h hgt) (by simp)

/-- C2: for every schema, term table (satisfying the TermTable contract
that the document-active term occupies a rank-0 row, so the rank-0 row
count is positive) and target `sliceBufferSize`,
`Shard::GetCapacityForByteSize` either returns the unique capacity that
is a positive multiple of the quantum `DocumentsInRank0Row(1,
maxRankUsed)` and satisfies `InitializeDescriptors(capacity) ≤
sliceBufferSize < InitializeDescriptors(capacity + quantum)`, or — when
no positive multiple fits — hits the fatal assertion
`LogAssertB(capacity > 0)`. -/
theorem getCapacityForByteSize_fits_unique (B : Nat) (schema : DocumentDataSchema)
    (tt : TermTableModel) (h0 : 0 < tt.totalRowCount 0) :
    (∃ c, getCapacityForByteSize B schema tt = .ok c ∧ fitsCapacity B schema tt c ∧
      ∀ c', fitsCapacity B schema tt c' → c' = c) ∨
    (getCapacityForByteSize B schema tt = .fatal ∧
      ∀ c', ¬ fitsCapacity B schema tt c') := by
  have hq : 0 < documentsInRank0Row1 tt.maxRankUsed := by
    unfold documentsInRank0Row1
    have := pow_pos (show (0 : Nat) < 2 from by norm_num) tt.maxRankUsed
    omega
  have hbound : B < initializeDescriptors
      ((B + 1) * documentsInRank0Row1 tt.maxRankUsed) schema tt := by
    have h1 := div8_le_initializeDescriptors schema tt
      ((B + 1) * documentsInRank0Row1 tt.maxRankUsed) h0
    have h2 : (B + 1) * 8 ≤ (B + 1) * documentsInRank0Row1 tt.maxRankUsed / 8 := by
      unfold documentsInRank0Row1
      have hx : 1 ≤ 2 ^ tt.maxRankUsed :=
        pow_pos (show (0 : Nat) < 2 from by norm_num) tt.maxRankUsed
      rw [show (B + 1) * (2 ^ tt.maxRankUsed * 64) =
            ((B + 1) * (2 ^ tt.maxRankUsed * 8)) * 8 from by ring]
      rw [Nat.mul_div_cancel _ (by norm_num : 0 < 8)]
      have h3 : 8 ≤ 2 ^ tt.maxRankUsed * 8 := by omega
      exact Nat.mul_le_mul le_rfl h3
    omega
  have hloop := capacityLoop_spec B schema tt (B + 1) 0 (by omega)
    (Nat.zero_mod _) (Or.inl rfl) (by simpa using hbound)
  rcases hloop with ⟨hfatal, _, hszq⟩ | ⟨c, hok, hfits⟩
  · right
    refine ⟨hfatal, ?_⟩
    intro c' hc'
    obtain ⟨hm', hp', hle', _⟩ := hc'
    have hd : documentsInRank0Row1 tt.maxRankUsed ∣ c' := Nat.dvd_of_mod_eq_zero hm'
    have hqc : documentsInRank0Row1 tt.maxRankUsed ≤ c' := Nat.le_of_dvd hp' hd
    have := initializeDescriptors_mono schema tt hqc
    omega
  · left
    exact ⟨c, hok, hfits, fun c' hc' => fitsCapacity_unique B schema tt hc' hfits⟩

/-- A concrete schema with no blobs, for the C2 witness. -/
def schemaExample : DocumentDataSchema := ⟨0, []⟩

/-- A concrete term table with a single rank-0 row and
`maxRankUsed = 0`, for the C2 witness. -/
def ttExample : TermTableModel := ⟨fun r => if r = 0 then 1 else 0, 0⟩

/-- Witness for C2 at `sliceBufferSize = 100` (the unique fitting
capacity is 704: `704/8 + 8 = 96 ≤ 100 < 104 = 768/8 + 8`). -/
theorem getCapacityForByteSize_fits_unique_witness :
    0 < ttExample.totalRowCount 0 ∧
    ((∃ c, getCapacityForByteSize 100 schemaExample ttExample = .ok c ∧
        fitsCapacity 100 schemaExample ttExample c ∧
        ∀ c', fitsCapacity 100 schemaExample ttExample c' → c' = c) ∨
     (getCapacityForByteSize 100 schemaExample ttExample = .fatal ∧
      ∀ c', ¬ fitsCapacity 100 schemaExample ttExample c')) :=
  ⟨by decide, getCapacityForByteSize_fits_unique 100 schemaExample ttExample (by decide)⟩
